import Mathlib

/-!
# Verification of the briefcase secure document-sharing backend

A shallow embedding of the backend's core logic, translated from the Python
source under `apps/backend/app`:

* `models/document.py` — the `Document` record, `calculate_status`,
  `update_status`, `is_accessible_by`, `increment_access_count`;
* `services/permission_service.py` — `check_document_permission`;
* `services/document_service.py` — `get_document`, `download_document`,
  access logging;
* `services/lifecycle_service.py` — `expire_documents`,
  `cleanup_deleted_documents`, configuration lookup, job bookkeeping;
* `core/encryption.py` — the CBC/PKCS7/base64 envelope around the AES block
  cipher.

Modelling conventions: timestamps are natural numbers (`datetime` values
ordered by `≤`/`<` exactly as in the source; for the lifecycle jobs one unit
is one day, matching `timedelta(days=n)` arithmetic); SQL `NULL` is
`Option.none`, and a SQL comparison against `NULL` is false, as in the
database; the ORM session is explicit state threaded through each service
function; an exception raised by a service is an `Except.error` value.
External primitives (the AES block permutation supplied by the
`cryptography` library) are parameters of the embedding; everything the
repository itself implements — status calculation, permission resolution,
service control flow, batch jobs, CBC chaining, PKCS7 padding, base64 —
is translated concretely.
-/

namespace Briefcase

/-- Timestamps (`datetime` in the source), totally ordered. -/
abbrev Time := Nat

/-- `DocumentStatus` enumeration from `models/document.py`. -/
inductive DocumentStatus where
  | active
  | expired
  | view_exhausted
  | deleted
  deriving DecidableEq, Repr

/-- The `Document` row from `models/document.py`, restricted to the columns
the core logic reads.  `encrypted_content` and `encryption_iv` are the
base64 strings stored by the encryption engine. -/
structure Document where
  id : String
  sender_id : String
  recipient_id : String
  encrypted_content : String
  encryption_iv : String
  expires_at : Option Time
  view_limit : Option Nat
  access_count : Nat
  status : DocumentStatus
  updated_at : Time
  deleted_at : Option Time
  file_name : String
  file_size : Nat
  deriving DecidableEq, Repr

/-- The guard `self.expires_at and datetime.now(self.expires_at.tzinfo) >
self.expires_at` from `calculate_status`: false when `expires_at` is
`None`, otherwise a strict comparison. -/
def expiry_passed (now : Time) : Option Time → Bool
  | some e => now > e
  | none => false

/-- The guard `self.view_limit is not None and self.access_count >=
self.view_limit` from `calculate_status`. -/
def view_limit_reached (access_count : Nat) : Option Nat → Bool
  | some v => access_count ≥ v
  | none => false

/-- `Document.calculate_status`: the Python body checks, in order,
`self.status == DocumentStatus.DELETED or self.deleted_at` (a `datetime`
is always truthy, so this is `deleted_at is not None`), then
`self.expires_at and datetime.now(...) > self.expires_at`, then
`self.view_limit is not None and self.access_count >= self.view_limit`,
and otherwise returns `ACTIVE`. -/
def calculate_status (now : Time) (d : Document) : DocumentStatus :=
  if d.status = DocumentStatus.deleted ∨ d.deleted_at.isSome then
    DocumentStatus.deleted
  else if expiry_passed now d.expires_at then
    DocumentStatus.expired
  else if view_limit_reached d.access_count d.view_limit then
    DocumentStatus.view_exhausted
  else
    DocumentStatus.active

/-- `Document.update_status`: stores the recomputed status back on the row. -/
def update_status (now : Time) (d : Document) : Document :=
  { d with status := calculate_status now d }

/-- `Document.is_accessible_by`: returns `False` outright when the user is
neither sender nor recipient; otherwise refreshes the stored status and
checks it is `ACTIVE`.  The refreshed row is returned alongside the answer
because the Python method mutates `self.status` in the ORM session. -/
def is_accessible_by (now : Time) (d : Document) (user_id : String) : Bool × Document :=
  if user_id ≠ d.sender_id ∧ user_id ≠ d.recipient_id then
    (false, d)
  else
    let d' := update_status now d
    (d'.status = DocumentStatus.active, d')

/-- `Document.increment_access_count`: bumps the counter, then refreshes the
status. -/
def increment_access_count (now : Time) (d : Document) : Document :=
  update_status now { d with access_count := d.access_count + 1 }

/-- `Document.soft_delete`: stamps `deleted_at` and forces status `DELETED`. -/
def soft_delete (now : Time) (d : Document) : Document :=
  { d with deleted_at := some now, status := DocumentStatus.deleted }

/-- A `DocumentPermission` row from `models/permissions.py`, restricted to
the columns `check_document_permission` reads. -/
structure DocumentPermission where
  document_id : String
  user_id : String
  permission_type : String
  expires_at : Option Time
  deriving DecidableEq, Repr

/-- The active-grant predicate from the SQL filter in
`PermissionService.check_document_permission`:
`expires_at IS NULL OR expires_at > now()`. -/
def permission_is_active (now : Time) (p : DocumentPermission) : Bool :=
  match p.expires_at with
  | none => true
  | some e => e > now

/-- `PermissionService.check_document_permission`, translated clause by
clause: look the document up by id; `if document and document.sender_id ==
user_id: return True`; `if document and document.recipient_id == user_id
and permission == "read": return True`; otherwise query for an explicit
unexpired `DocumentPermission` row matching `(document_id, user_id,
permission)` and return whether one exists. -/
def check_document_permission (now : Time) (docs : List Document)
    (perms : List DocumentPermission)
    (user_id document_id permission : String) : Bool :=
  let document := docs.find? (fun d => d.id == document_id)
  if (match document with | some d => d.sender_id == user_id | none => false) then
    true
  else if (match document with
           | some d => d.recipient_id == user_id && permission == "read"
           | none => false) then
    true
  else
    (perms.find? (fun p =>
      p.document_id == document_id && p.user_id == user_id &&
      p.permission_type == permission && permission_is_active now p)).isSome

/-- The `AccessAction` enumeration from `models/document_access_log.py`,
restricted to the members the embedded services emit. -/
inductive AccessAction where
  | upload
  | view
  | download
  | update
  | delete
  | access_denied
  deriving DecidableEq, Repr

/-- A `DocumentAccessLog` row, restricted to the columns
`DocumentService._log_access` fills from its arguments. -/
structure AccessLog where
  document_id : String
  user_id : String
  action : AccessAction
  success : Bool
  error_message : Option String
  deriving DecidableEq, Repr

/-- The slice of the database the document service reads and writes. -/
structure DbState where
  documents : List Document
  permissions : List DocumentPermission
  access_logs : List AccessLog
  deriving DecidableEq, Repr

/-- `DocumentService._log_access`: appends one audit row and commits it
(the embedding models the successful commit; on failure the row is
rolled back without failing the caller). -/
def log_access (st : DbState) (document_id user_id : String)
    (action : AccessAction) (success : Bool) (error_message : Option String) : DbState :=
  { st with access_logs := st.access_logs ++
      [{ document_id := document_id, user_id := user_id, action := action,
         success := success, error_message := error_message }] }

/-- The typed errors the document service raises (`HTTPException` status
codes 404, 403 and 500 in the source). -/
inductive SvcError where
  | notFound
  | forbidden
  | serverError
  deriving DecidableEq, Repr

/-- The ORM session holds one object per row; a mutation of the object
found by id is visible as a replacement of every row bearing that id. -/
def replace_document (docs : List Document) (document_id : String) (d' : Document) :
    List Document :=
  docs.map (fun d => if d.id == document_id then d' else d)

/-- `DocumentService.get_document`: look the row up by id (absent → log
`ACCESS_DENIED`, raise 404); run `is_accessible_by` (which refreshes the
stored status in the session); on denial log `ACCESS_DENIED` and raise
403; on success log `VIEW` and return the metadata. -/
def get_document (now : Time) (st : DbState) (document_id user_id : String) :
    Except SvcError Document × DbState :=
  match st.documents.find? (fun d => d.id == document_id) with
  | none =>
      (Except.error SvcError.notFound,
       log_access st document_id user_id AccessAction.access_denied false
         (some "Document not found"))
  | some document =>
      let r := is_accessible_by now document user_id
      let st' := { st with documents := replace_document st.documents document_id r.2 }
      if r.1 then
        (Except.ok r.2, log_access st' document_id user_id AccessAction.view true none)
      else
        (Except.error SvcError.forbidden,
         log_access st' document_id user_id AccessAction.access_denied false
           (some "User not authorized to access this document"))

/-- `DocumentService.download_document`, parametrised by the decryption
routine `DocumentEncryption.decrypt_to_base64_content` (arguments:
encrypted content, IV, document id; `none` models a raised
`EncryptionError`): look up, gate through `is_accessible_by`, decrypt,
and only after a successful decrypt increment the access count and log
`DOWNLOAD`; a failed decrypt logs `ACCESS_DENIED` and raises 500. -/
def download_document (decryptFn : String → String → String → Option String)
    (now : Time) (st : DbState) (document_id user_id : String) :
    Except SvcError String × DbState :=
  match st.documents.find? (fun d => d.id == document_id) with
  | none =>
      (Except.error SvcError.notFound,
       log_access st document_id user_id AccessAction.access_denied false
         (some "Document not found"))
  | some document =>
      let r := is_accessible_by now document user_id
      let st' := { st with documents := replace_document st.documents document_id r.2 }
      if r.1 then
        match decryptFn r.2.encrypted_content r.2.encryption_iv r.2.id with
        | some content =>
            let document' := increment_access_count now r.2
            let st'' := { st' with
              documents := replace_document st'.documents document_id document' }
            (Except.ok content,
             log_access st'' document_id user_id AccessAction.download true none)
        | none =>
            (Except.error SvcError.serverError,
             log_access st' document_id user_id AccessAction.access_denied false
               (some "Decryption failed"))
      else
        (Except.error SvcError.forbidden,
         log_access st' document_id user_id AccessAction.access_denied false
           (some "User not authorized or document not accessible"))

/-- A `DocumentLifecycleEvent` row from `models/lifecycle.py`; the JSON
`event_metadata` dictionary is flattened into the optional fields the two
jobs actually write (`expiration_date`, `original_filename`, `file_size`,
`deletion_date`). -/
structure LifecycleEvent where
  document_id : String
  event_type : String
  automated : Bool
  meta_expiration_date : Option Time
  meta_original_filename : Option String
  meta_file_size : Option Nat
  meta_deletion_date : Option Time
  deriving DecidableEq, Repr

/-- A `CleanupJob` row from `models/lifecycle.py`, as finalised by
`_complete_cleanup_job`. -/
structure CleanupJob where
  job_type : String
  status : String
  items_processed : Nat
  items_failed : Nat
  error_message : Option String
  deriving DecidableEq, Repr

/-- The slice of the database the lifecycle service reads and writes.
`config` is the `LifecycleConfig` table as (setting_name, setting_value)
pairs. -/
structure LifeState where
  documents : List Document
  lifecycle_events : List LifecycleEvent
  access_logs : List AccessLog
  cleanup_jobs : List CleanupJob
  config : List (String × String)
  deriving DecidableEq, Repr

/-- `LifecycleConfigService.get_config_value`: first row matching the
setting name, else the default. -/
def get_config_value (st : LifeState) (setting_name default : String) : String :=
  match st.config.find? (fun kv => kv.1 == setting_name) with
  | some kv => kv.2
  | none => default

/-- Decimal digits of `int(...)` on the non-negative integer strings the
configuration stores, accumulated left to right; any non-digit character
fails the parse. -/
def parseNatCore : List Char → Nat → Option Nat
  | [], acc => some acc
  | c :: cs, acc =>
      if c.isDigit then parseNatCore cs (acc * 10 + (c.toNat - '0'.toNat))
      else none

/-- `int(value)` on a configuration string: at least one digit, digits
only. -/
def parseNat (s : String) : Option Nat :=
  match s.data with
  | [] => none
  | cs => parseNatCore cs 0

/-- `LifecycleConfigService.get_config_int`: `get_config_value(name,
str(default))` followed by `int(value)`, with the default on parse
failure.  When the setting is absent the source parses `str(default)`
back, which yields the default itself, so the two branches below are the
source's two outcomes. -/
def get_config_int (st : LifeState) (setting_name : String) (default : Nat) : Nat :=
  match st.config.find? (fun kv => kv.1 == setting_name) with
  | some kv => (parseNat kv.2).getD default
  | none => default

/-- The SQL selection filter of `expire_documents`:
`expires_at <= now AND status == ACTIVE` (a `NULL` `expires_at` compares
false). -/
def expire_selects (now : Time) (d : Document) : Bool :=
  (match d.expires_at with | some e => e ≤ now | none => false) &&
    d.status == DocumentStatus.active

/-- The `DocumentLifecycleEvent(document_id=..., event_type='expired',
automated=True, event_metadata={'expiration_date': ...})` record built for
each document `expire_documents` processes. -/
def mkExpiredEvent (d : Document) : LifecycleEvent :=
  { document_id := d.id, event_type := "expired", automated := true,
    meta_expiration_date := d.expires_at, meta_original_filename := none,
    meta_file_size := none, meta_deletion_date := none }

/-- The per-item loop of `expire_documents`.  The loop body first sets the
document's status (modelled separately, since the session object is
mutated before the point where an exception could occur), then builds the
lifecycle event and bumps `expired_count`; the `except` branch skips the
event and bumps `items_failed` instead.  `fails` marks the items whose
body raises.  Returns (events, expired_count, items_failed). -/
def expire_loop (fails : Document → Bool) :
    List Document → List LifecycleEvent × Nat × Nat
  | [] => ([], 0, 0)
  | d :: rest =>
      let r := expire_loop fails rest
      if fails d then
        (r.1, r.2.1, r.2.2 + 1)
      else
        (mkExpiredEvent d :: r.1, r.2.1 + 1, r.2.2)

/-- `DocumentLifecycleService.expire_documents`: start a
`document_expiration` job, select with `expire_selects`, set each selected
row's status to `EXPIRED` and (per-item `try`) add one `expired` event,
commit the batch once, finalise the job, and return the count.

The loop's `job.items_failed += 1` and the final `job.items_processed =
expired_count` mutate only the *detached* instance `_start_cleanup_job`
returned from its own closed session; `_complete_cleanup_job` refetches
the row in a fresh session and persists only `status`, `completed_at` and
`error_message`, so the stored counters keep their column defaults of 0.
The loop counters therefore reach only the return value, never the
finalised `CleanupJob` row. -/
def expire_documents (fails : Document → Bool) (now : Time) (st : LifeState) :
    Nat × LifeState :=
  let selected := st.documents.filter (expire_selects now)
  let r := expire_loop fails selected
  let docs' := st.documents.map (fun d =>
    if expire_selects now d then { d with status := DocumentStatus.expired } else d)
  let job : CleanupJob :=
    { job_type := "document_expiration", status := "completed",
      items_processed := 0, items_failed := 0, error_message := none }
  (r.2.1,
   { st with documents := docs',
             lifecycle_events := st.lifecycle_events ++ r.1,
             cleanup_jobs := st.cleanup_jobs ++ [job] })

/-- The `permanently_deleted` event `_permanently_delete_document` records
just before removing the row. -/
def mkDeletionEvent (now : Time) (d : Document) : LifecycleEvent :=
  { document_id := d.id, event_type := "permanently_deleted", automated := true,
    meta_expiration_date := none, meta_original_filename := some d.file_name,
    meta_file_size := some d.file_size, meta_deletion_date := some now }

/-- `DocumentLifecycleService._permanently_delete_document`: delete the
document's access logs, delete its lifecycle events, add the final
`permanently_deleted` event, then delete the document row itself (the
best-effort filesystem blob removal leaves the database untouched). -/
def permanently_delete_document (now : Time) (d : Document) (st : LifeState) : LifeState :=
  { st with
    access_logs := st.access_logs.filter (fun l => l.document_id != d.id),
    lifecycle_events := st.lifecycle_events.filter (fun e => e.document_id != d.id)
      ++ [mkDeletionEvent now d],
    documents := st.documents.filter (fun x => x.id != d.id) }

/-- The per-item loop of `cleanup_deleted_documents`: permanently delete
each selected document and count it (the loop body is total in the
embedding, so the per-item `except` branch never fires). -/
def cleanup_loop (now : Time) : List Document → LifeState → LifeState × Nat
  | [], st => (st, 0)
  | d :: rest, st =>
      let r := cleanup_loop now rest (permanently_delete_document now d st)
      (r.1, r.2 + 1)

/-- The SQL selection filter of `cleanup_deleted_documents`:
`status == DELETED AND updated_at <= cutoff`. -/
def cleanup_selects (cutoff : Time) (d : Document) : Bool :=
  d.status == DocumentStatus.deleted && d.updated_at ≤ cutoff

/-- `DocumentLifecycleService.cleanup_deleted_documents`: read the grace
period (default 30 days) and batch size (default 100) from config, select
`DELETED` rows whose `updated_at` is at or before `now - grace` with a
`LIMIT batch`, permanently delete each, commit once, finalise the
`document_cleanup` job as `completed`, and return the count.

As in `expire_documents`, `job.items_processed = deleted_count` is
assigned only on the detached instance; `_complete_cleanup_job` refetches
the row and persists only `status`, `completed_at` and `error_message`,
so the stored counters keep their column defaults of 0. -/
def cleanup_deleted_documents (now : Time) (st : LifeState) : Nat × LifeState :=
  let grace := get_config_int st "cleanup_grace_period_days" 30
  let batch := get_config_int st "cleanup_batch_size" 100
  let cutoff := now - grace
  let selected := (st.documents.filter (cleanup_selects cutoff)).take batch
  let r := cleanup_loop now selected st
  let job : CleanupJob :=
    { job_type := "document_cleanup", status := "completed",
      items_processed := 0, items_failed := 0, error_message := none }
  (r.2, { r.1 with cleanup_jobs := r.1.cleanup_jobs ++ [job] })

/-! ## Encryption engine (`core/encryption.py`)

The repository composes, around the AES-256 block cipher supplied by the
`cryptography` library: PBKDF2 key derivation salted with the document id,
a fresh 16-byte IV, CBC chaining, PKCS7 padding to the 16-byte block size,
and base64 transport encoding.  The AES block permutation itself is the
external primitive, so it enters the embedding as a parameter: a
`BlockCipher` per document id (the derived key is a deterministic function
of the id, so keying is folded into the per-id cipher).  Everything else —
padding, chaining, chunking, base64 — is implemented concretely below. -/

/-- The external AES block permutation under one derived key: encryption
and decryption directions of a 16-byte block. -/
structure BlockCipher where
  encB : List Nat → List Nat
  decB : List Nat → List Nat

/-- Base64 alphabet: sextet value to ASCII code
(`A-Z`, `a-z`, `0-9`, `+`, `/`). -/
def b64chr (n : Nat) : Nat :=
  if n < 26 then 65 + n
  else if n < 52 then 97 + (n - 26)
  else if n < 62 then 48 + (n - 52)
  else if n = 62 then 43
  else 47

/-- Base64 alphabet inverse: ASCII code to sextet value. -/
def b64idx (c : Nat) : Nat :=
  if 65 ≤ c ∧ c ≤ 90 then c - 65
  else if 97 ≤ c ∧ c ≤ 122 then c - 97 + 26
  else if 48 ≤ c ∧ c ≤ 57 then c - 48 + 52
  else if c = 43 then 62
  else 63

/-- `base64.b64encode` on a byte list: each 3-byte group becomes 4 alphabet
characters; a trailing group of 2 or 1 bytes is padded with `'='` (ASCII
61). -/
def b64encode : List Nat → List Nat
  | a :: b :: c :: rest =>
      b64chr (a / 4) :: b64chr (a % 4 * 16 + b / 16) ::
        b64chr (b % 16 * 4 + c / 64) :: b64chr (c % 64) :: b64encode rest
  | [a, b] => [b64chr (a / 4), b64chr (a % 4 * 16 + b / 16), b64chr (b % 16 * 4), 61]
  | [a] => [b64chr (a / 4), b64chr (a % 4 * 16), 61, 61]
  | [] => []

/-- `base64.b64decode` on the character codes produced by `b64encode`:
4 characters yield 3 bytes, or fewer at the final `'='`-padded group. -/
def b64decode : List Nat → List Nat
  | c1 :: c2 :: c3 :: c4 :: rest =>
      if c3 = 61 then [b64idx c1 * 4 + b64idx c2 / 16]
      else if c4 = 61 then
        [b64idx c1 * 4 + b64idx c2 / 16, b64idx c2 % 16 * 16 + b64idx c3 / 4]
      else
        (b64idx c1 * 4 + b64idx c2 / 16) :: (b64idx c2 % 16 * 16 + b64idx c3 / 4) ::
          (b64idx c3 % 4 * 64 + b64idx c4) :: b64decode rest
  | _ => []

/-- `padding.PKCS7(128).padder()`: append `p` copies of the byte `p`,
where `p = 16 - len % 16` (so `1 ≤ p ≤ 16`). -/
def pkcs7_pad (bs : List Nat) : List Nat :=
  let p := 16 - bs.length % 16
  bs ++ List.replicate p p

/-- `padding.PKCS7(128).unpadder()`: read the final byte `p`, demand
`1 ≤ p ≤ 16`, that at least `p` bytes are present and that the final `p`
bytes all equal `p`; strip them.  Any violation raises, modelled as
`none`. -/
def pkcs7_unpad (bs : List Nat) : Option (List Nat) :=
  match bs.getLast? with
  | none => none
  | some p =>
      if 1 ≤ p ∧ p ≤ 16 ∧ p ≤ bs.length ∧
          (bs.drop (bs.length - p)).all (fun x => x == p) then
        some (bs.take (bs.length - p))
      else
        none

/-- Split a byte string into consecutive 16-byte cipher blocks (the final
chunk is shorter when the length is not a multiple of 16). -/
def chunk16 : List Nat → List (List Nat)
  | [] => []
  | a :: l => (a :: l).take 16 :: chunk16 ((a :: l).drop 16)
  termination_by l => l.length
  decreasing_by simp; omega

/-- Bytewise XOR of two equal-length strings. -/
def xorBytes (a b : List Nat) : List Nat :=
  List.zipWith Nat.xor a b

/-- CBC encryption over a block list: each plaintext block is XORed with
the previous ciphertext block (the IV first) and then sent through the
block cipher. -/
def cbc_encrypt_blocks (C : BlockCipher) (prev : List Nat) :
    List (List Nat) → List (List Nat)
  | [] => []
  | b :: rest =>
      let c := C.encB (xorBytes b prev)
      c :: cbc_encrypt_blocks C c rest

/-- CBC decryption over a block list: each ciphertext block is sent
through the inverse cipher and XORed with the previous ciphertext block
(the IV first). -/
def cbc_decrypt_blocks (C : BlockCipher) (prev : List Nat) :
    List (List Nat) → List (List Nat)
  | [] => []
  | c :: rest => xorBytes (C.decB c) prev :: cbc_decrypt_blocks C c rest

/-- `DocumentEncryption.encrypt_content`: derive the document's cipher,
PKCS7-pad the content, run AES-256-CBC under the supplied fresh IV, and
return the base64-encoded ciphertext and IV.  `cipherFor` is the derived
AES permutation per document id
(`derive_key_from_master` + `algorithms.AES`). -/
def encrypt_content (cipherFor : String → BlockCipher) (document_id : String)
    (iv content : List Nat) : List Nat × List Nat :=
  let blocks := chunk16 (pkcs7_pad content)
  let ct := (cbc_encrypt_blocks (cipherFor document_id) iv blocks).flatten
  (b64encode ct, b64encode iv)

/-- `DocumentEncryption.decrypt_content`: base64-decode the ciphertext and
IV, demand a whole number of 16-byte blocks and a 16-byte IV (the
`cryptography` layer raises otherwise), run CBC in the decrypt direction
and strip the PKCS7 padding; any failure raises `EncryptionError`,
modelled as `none`. -/
def decrypt_content (cipherFor : String → BlockCipher)
    (encrypted iv : List Nat) (document_id : String) : Option (List Nat) :=
  let bs := b64decode encrypted
  let ivb := b64decode iv
  if ivb.length = 16 ∧ bs.length % 16 = 0 then
    pkcs7_unpad (cbc_decrypt_blocks (cipherFor document_id) ivb (chunk16 bs)).flatten
  else
    none

/-! ## Concrete fixtures for counterexamples and witnesses -/

/-- A baseline active document shared by the concrete instances below. -/
def sampleDoc : Document :=
  { id := "doc-1", sender_id := "alice", recipient_id := "bob",
    encrypted_content := "ct", encryption_iv := "iv", expires_at := none,
    view_limit := none, access_count := 0, status := DocumentStatus.active,
    updated_at := 0, deleted_at := none, file_name := "f.txt", file_size := 3 }

/-- An unexpired explicit `read` grant for user `carol` on `doc-1`. -/
def sampleReadGrant : DocumentPermission :=
  { document_id := "doc-1", user_id := "carol", permission_type := "read",
    expires_at := none }

/-- Modelled from the spec's words, for comparison with `get_document`
(claim C1): "read requires sender-or-recipient-or-permission-granted
(read)" — the user is the sender, the recipient, or holds an active
explicit `read` grant on the document. -/
def spec_read_allowed (now : Time) (st : DbState) (document_id user_id : String) : Bool :=
  match st.documents.find? (fun d => d.id == document_id) with
  | none => false
  | some d =>
      d.sender_id == user_id || d.recipient_id == user_id ||
        (st.permissions.find? (fun p =>
          p.document_id == document_id && p.user_id == user_id &&
          p.permission_type == "read" && permission_is_active now p)).isSome

/-- A document like `sampleDoc` but with a view limit of one download. -/
def limitDoc : Document :=
  { sampleDoc with view_limit := some 1 }

/-- A database holding only `limitDoc`. -/
def limitSt : DbState :=
  { documents := [limitDoc], permissions := [], access_logs := [] }

/-- An `ACTIVE` document overdue for expiry. -/
def overdueDoc : Document :=
  { sampleDoc with expires_at := some 5 }

/-- A lifecycle database holding only `overdueDoc`, with an empty job
table. -/
def expireSt : LifeState :=
  { documents := [overdueDoc], lifecycle_events := [], access_logs := [],
    cleanup_jobs := [], config := [] }

/-- A soft-deleted document whose `updated_at` is long past any grace
period. -/
def deletedDoc : Document :=
  { sampleDoc with status := DocumentStatus.deleted, deleted_at := some 0 }

/-- A lifecycle database holding only `deletedDoc`, with no configuration
overrides (so the defaults 30 and 100 apply). -/
def cleanupSt : LifeState :=
  { documents := [deletedDoc], lifecycle_events := [], access_logs := [],
    cleanup_jobs := [], config := [] }

end Briefcase

namespace Briefcase

/-! ## Supporting lemmas -/

/-- The SQL activity filter, in propositional form. -/
theorem permission_is_active_iff (now : Time) (p : DocumentPermission) :
    permission_is_active now p = true ↔
      (p.expires_at = none ∨ ∃ e, p.expires_at = some e ∧ now < e) := by
  unfold permission_is_active
  cases h : p.expires_at <;> simp [h]

/-- An expiry that has not passed never trips the `EXPIRED` guard. -/
theorem expiry_passed_eq_false (now : Time) (x : Option Time)
    (h : ∀ e, x = some e → now ≤ e) : expiry_passed now x = false := by
  cases x with
  | none => rfl
  | some e =>
      simp only [expiry_passed, decide_eq_false_iff_not, Nat.not_lt]
      exact h e rfl

/-- Looking a document up after the session object for its id was replaced
finds the replacement. -/
theorem find?_replace_document (docs : List Document) (document_id : String)
    (doc d' : Document)
    (hfind : docs.find? (fun d => d.id == document_id) = some doc)
    (hid : (d'.id == document_id) = true) :
    (replace_document docs document_id d').find? (fun d => d.id == document_id) =
      some d' := by
  induction docs with
  | nil => simp at hfind
  | cons a rest ih =>
      by_cases ha : (a.id == document_id) = true
      · have hrepl : replace_document (a :: rest) document_id d' =
            d' :: replace_document rest document_id d' := by
          unfold replace_document
          rw [List.map_cons, if_pos ha]
        rw [hrepl, List.find?_cons]
        simp [hid]
      · have ha' : (a.id == document_id) = false := eq_false_of_ne_true ha
        have hrepl : replace_document (a :: rest) document_id d' =
            a :: replace_document rest document_id d' := by
          unfold replace_document
          rw [List.map_cons, if_neg ha]
        rw [List.find?_cons] at hfind
        rw [ha'] at hfind
        rw [hrepl, List.find?_cons, ha']
        exact ih hfind

/-- Two successive session replacements of the same id collapse to the
second. -/
theorem replace_document_twice (docs : List Document) (document_id : String)
    (d1 d2 : Document) (h1 : (d1.id == document_id) = true) :
    replace_document (replace_document docs document_id d1) document_id d2 =
      replace_document docs document_id d2 := by
  unfold replace_document
  rw [List.map_map]
  apply List.map_congr_left
  intro x _
  simp only [Function.comp_apply]
  by_cases hx : (x.id == document_id) = true
  · rw [if_pos hx, if_pos h1, if_pos hx]
  · rw [if_neg hx, if_neg hx]

/-- Characterisation of the `expire_documents` per-item loop: the events,
success count and failure count it accumulates over a selected list. -/
theorem expire_loop_spec (fails : Document → Bool) (l : List Document) :
    (expire_loop fails l).1 = (l.filter (fun d => !fails d)).map mkExpiredEvent ∧
    (expire_loop fails l).2.1 = (l.filter (fun d => !fails d)).length ∧
    (expire_loop fails l).2.2 = (l.filter fails).length := by
  induction l with
  | nil => simp [expire_loop]
  | cons d rest ih =>
      by_cases h : fails d <;>
        simp [expire_loop, h, ih.1, ih.2.1, ih.2.2]

/-- Characterisation of the `cleanup_deleted_documents` per-item loop: it
counts the selected list, removes exactly the selected ids from the
document table, and leaves jobs and configuration alone. -/
theorem cleanup_loop_spec (now : Time) (sel : List Document) (st : LifeState) :
    (cleanup_loop now sel st).2 = sel.length ∧
    (cleanup_loop now sel st).1.documents =
      st.documents.filter (fun d => sel.all (fun s => d.id != s.id)) ∧
    (cleanup_loop now sel st).1.cleanup_jobs = st.cleanup_jobs ∧
    (cleanup_loop now sel st).1.config = st.config := by
  induction sel generalizing st with
  | nil => simp [cleanup_loop]
  | cons d rest ih =>
      have h := ih (permanently_delete_document now d st)
      refine ⟨?_, ?_, ?_, ?_⟩
      · simp [cleanup_loop, h.1]
      · rw [cleanup_loop]
        simp only
        rw [h.2.1]
        simp only [permanently_delete_document]
        rw [List.filter_filter]
        apply List.filter_congr
        intro x _
        simp [Bool.and_comm]
      · rw [cleanup_loop]
        simp only
        rw [h.2.2.1]
        simp [permanently_delete_document]
      · rw [cleanup_loop]
        simp only
        rw [h.2.2.2]
        simp [permanently_delete_document]

/-- Configuration lookups depend only on the configuration table. -/
theorem get_config_int_congr (st1 st2 : LifeState) (name : String) (d : Nat)
    (h : st1.config = st2.config) :
    get_config_int st1 name d = get_config_int st2 name d := by
  simp [get_config_int, get_config_value, h]

end Briefcase

namespace Briefcase

/-! ## Claims -/

/-- C3 counterexample: two documents that agree on all four of
`(expires_at, view_limit, access_count, deleted_at)` — in particular
neither has `deleted_at` set — but whose stored status differs, recompute
to different statuses, because `calculate_status` also consults the stored
`status` field (`self.status == DocumentStatus.DELETED or
self.deleted_at`).  So the recomputed status is not a function of the four
fields alone. -/
theorem calculate_status_not_function_of_four_fields :
    ((sampleDoc.expires_at, sampleDoc.view_limit, sampleDoc.access_count,
        sampleDoc.deleted_at) =
      (({ sampleDoc with status := DocumentStatus.deleted } : Document).expires_at,
       ({ sampleDoc with status := DocumentStatus.deleted } : Document).view_limit,
       ({ sampleDoc with status := DocumentStatus.deleted } : Document).access_count,
       ({ sampleDoc with status := DocumentStatus.deleted } : Document).deleted_at)) ∧
    calculate_status 0 sampleDoc ≠
      calculate_status 0 { sampleDoc with status := DocumentStatus.deleted } := by
  constructor
  · rfl
  · decide

/-- C3 (amended): the recomputed status is a pure function of the four
fields `(expires_at, view_limit, access_count, deleted_at)` *together
with* whether the stored status is `DELETED`: two documents agreeing on
those recompute to the same status regardless of any other difference in
the stored status value. -/
theorem calculate_status_function_of_fields (now : Time) (d1 d2 : Document)
    (h4 : (d1.expires_at, d1.view_limit, d1.access_count, d1.deleted_at) =
          (d2.expires_at, d2.view_limit, d2.access_count, d2.deleted_at))
    (hs : d1.status = DocumentStatus.deleted ↔ d2.status = DocumentStatus.deleted) :
    calculate_status now d1 = calculate_status now d2 := by
  simp only [Prod.mk.injEq] at h4
  obtain ⟨he, hv, ha, hd⟩ := h4
  unfold calculate_status
  rw [he, hv, ha, hd]
  by_cases hstat : d2.status = DocumentStatus.deleted
  · have h1 : d1.status = DocumentStatus.deleted := hs.mpr hstat
    simp [h1, hstat]
  · have h1 : ¬d1.status = DocumentStatus.deleted := fun hh => hstat (hs.mp hh)
    simp [h1, hstat]

/-- C3 (amended) witness at concrete inputs: a stored-`EXPIRED` and a
stored-`ACTIVE` document with the same four fields recompute equally. -/
theorem calculate_status_function_of_fields_witness :
    calculate_status 0 { sampleDoc with status := DocumentStatus.expired } =
      calculate_status 0 sampleDoc :=
  calculate_status_function_of_fields 0
    { sampleDoc with status := DocumentStatus.expired } sampleDoc rfl (by decide)

/-- C4: status recomputation checks `DELETED`, then `EXPIRED`, then
`VIEW_EXHAUSTED`, then `ACTIVE`, first match winning: a document with
`deleted_at` set recomputes to `DELETED` whatever else holds, and a
non-deleted document (neither `deleted_at` nor a stored `DELETED` status)
whose expiry is in the past recomputes to `EXPIRED` even when its view
limit is also exhausted. -/
theorem calculate_status_precedence (now : Time) (d : Document) :
    (d.deleted_at.isSome → calculate_status now d = DocumentStatus.deleted) ∧
    (d.deleted_at = none → d.status ≠ DocumentStatus.deleted →
      (∃ e, d.expires_at = some e ∧ e < now) →
      (∃ v, d.view_limit = some v ∧ v ≤ d.access_count) →
      calculate_status now d = DocumentStatus.expired) := by
  constructor
  · intro h
    simp [calculate_status, h]
  · rintro hdel hst ⟨e, he, hlt⟩ ⟨v, hv, hle⟩
    simp [calculate_status, hdel, hst, he, expiry_passed, hlt]

/-- C4 witness: at `now = 5`, a deleted-and-expired document recomputes to
`DELETED`, and a non-deleted document that is both expired and
view-exhausted recomputes to `EXPIRED`. -/
theorem calculate_status_precedence_witness :
    calculate_status 5
        { sampleDoc with deleted_at := some 1, expires_at := some 0 } =
      DocumentStatus.deleted ∧
    calculate_status 5
        { sampleDoc with
          expires_at := some 1, view_limit := some 2, access_count := 3 } =
      DocumentStatus.expired :=
  ⟨(calculate_status_precedence 5 _).1 (by decide),
   (calculate_status_precedence 5 _).2 rfl (by decide)
     ⟨1, rfl, by decide⟩ ⟨2, rfl, by decide⟩⟩

/-- C2: with the document row present, `check_document_permission`
resolves exactly to: sender (any capability), else recipient with
capability `read`, else an explicit `DocumentPermission` row for
`(document, user, capability)` whose `expires_at` is `NULL` or strictly
in the future; in every other case — in particular when the only matching
grant rows have `expires_at` in the past — it returns false. -/
theorem check_document_permission_resolution (now : Time) (docs : List Document)
    (perms : List DocumentPermission) (user_id document_id permission : String)
    (doc : Document)
    (hfind : docs.find? (fun d => d.id == document_id) = some doc) :
    check_document_permission now docs perms user_id document_id permission = true ↔
      (doc.sender_id = user_id ∨
       (doc.recipient_id = user_id ∧ permission = "read") ∨
       ∃ p ∈ perms, p.document_id = document_id ∧ p.user_id = user_id ∧
         p.permission_type = permission ∧
         (p.expires_at = none ∨ ∃ e, p.expires_at = some e ∧ now < e)) := by
  unfold check_document_permission
  rw [hfind]
  by_cases h1 : doc.sender_id = user_id
  · simp [h1]
  · by_cases h2 : doc.recipient_id = user_id ∧ permission = "read"
    · simp [h1, h2.1, h2.2]
    · have hb1 : (doc.sender_id == user_id) = false := by
        simp [h1]
      have hb2 : (doc.recipient_id == user_id && permission == "read") = false := by
        rcases Decidable.not_and_iff_or_not.mp h2 with h | h <;> simp [h]
      simp only [hb1, hb2, if_false, Bool.false_eq_true]
      rw [List.find?_isSome]
      constructor
      · rintro ⟨p, hp, hpred⟩
        simp only [Bool.and_eq_true, beq_iff_eq] at hpred
        exact Or.inr (Or.inr ⟨p, hp, hpred.1.1.1, hpred.1.1.2, hpred.1.2,
          (permission_is_active_iff now p).mp hpred.2⟩)
      · rintro (h | h | ⟨p, hp, e1, e2, e3, hact⟩)
        · exact absurd h h1
        · exact absurd h h2
        · exact ⟨p, hp, by
            simp only [Bool.and_eq_true, beq_iff_eq]
            exact ⟨⟨⟨e1, e2⟩, e3⟩, (permission_is_active_iff now p).mpr hact⟩⟩

/-- C2 witness at a concrete state: the resolution characterisation,
instantiated for user `carol` asking `write` on `doc-1` with an expired
`write` grant on file — both sides of the iff evaluate to false. -/
theorem check_document_permission_resolution_witness :
    (check_document_permission 10 [sampleDoc]
        [{ document_id := "doc-1", user_id := "carol",
           permission_type := "write", expires_at := some 5 }]
        "carol" "doc-1" "write" = true ↔
      (sampleDoc.sender_id = "carol" ∨
       (sampleDoc.recipient_id = "carol" ∧ "write" = "read") ∨
       ∃ p ∈ [({ document_id := "doc-1", user_id := "carol",
                 permission_type := "write",
                 expires_at := some 5 } : DocumentPermission)],
         p.document_id = "doc-1" ∧ p.user_id = "carol" ∧
         p.permission_type = "write" ∧
         (p.expires_at = none ∨ ∃ e, p.expires_at = some e ∧ 10 < e))) :=
  check_document_permission_resolution 10 [sampleDoc] _ "carol" "doc-1" "write"
    sampleDoc rfl

/-- C1 counterexample: user `carol` holds an active explicit `read` grant
on `doc-1` (and the document is `ACTIVE`), so the claim's success
condition holds, yet `DocumentService.get_document` denies her with a 403:
the service gates reads through `Document.is_accessible_by`, which only
admits the sender and the recipient and never consults
`DocumentPermission` grants. -/
theorem get_document_denies_grantee :
    spec_read_allowed 0
        { documents := [sampleDoc], permissions := [sampleReadGrant],
          access_logs := [] } "doc-1" "carol" = true ∧
    (get_document 0
        { documents := [sampleDoc], permissions := [sampleReadGrant],
          access_logs := [] } "doc-1" "carol").1 =
      Except.error SvcError.forbidden := by
  constructor
  · decide
  · rfl

/-- C1 (amended): with the row present, `get_document` succeeds exactly
when the user is the sender or the recipient *and* the recomputed status
is `ACTIVE`; explicit `read` grants are not consulted.  On success a
`VIEW` audit event is appended; on denial the only error is 403 and an
`ACCESS_DENIED` audit event is appended before the error surfaces. -/
theorem get_document_spec (now : Time) (st : DbState)
    (document_id user_id : String) (doc : Document)
    (hfind : st.documents.find? (fun d => d.id == document_id) = some doc) :
    ((∃ d, (get_document now st document_id user_id).1 = Except.ok d) ↔
      ((user_id = doc.sender_id ∨ user_id = doc.recipient_id) ∧
        calculate_status now doc = DocumentStatus.active)) ∧
    (∀ d, (get_document now st document_id user_id).1 = Except.ok d →
      (get_document now st document_id user_id).2.access_logs =
        st.access_logs ++
          [{ document_id := document_id, user_id := user_id,
             action := AccessAction.view, success := true,
             error_message := none }]) ∧
    (∀ e, (get_document now st document_id user_id).1 = Except.error e →
      e = SvcError.forbidden ∧
      (get_document now st document_id user_id).2.access_logs =
        st.access_logs ++
          [{ document_id := document_id, user_id := user_id,
             action := AccessAction.access_denied, success := false,
             error_message :=
               some "User not authorized to access this document" }]) := by
  unfold get_document is_accessible_by
  rw [hfind]
  by_cases hrole : user_id ≠ doc.sender_id ∧ user_id ≠ doc.recipient_id
  · simp [hrole, hrole.1, hrole.2, log_access]
  · have hrole' : user_id = doc.sender_id ∨ user_id = doc.recipient_id := by
      rcases Decidable.not_and_iff_or_not.mp hrole with h | h
      · exact Or.inl (Decidable.not_not.mp h)
      · exact Or.inr (Decidable.not_not.mp h)
    by_cases hact : calculate_status now doc = DocumentStatus.active
    · simp [hrole, hrole', hact, log_access, update_status]
    · simp [hrole, hrole', hact, log_access, update_status]

/-- C1 (amended) witness: sender `alice` reads `doc-1` successfully, and
the characterisation instantiates at that state. -/
theorem get_document_spec_witness :
    ((∃ d, (get_document 0
        { documents := [sampleDoc], permissions := [], access_logs := [] }
        "doc-1" "alice").1 = Except.ok d) ↔
      (("alice" = sampleDoc.sender_id ∨ "alice" = sampleDoc.recipient_id) ∧
        calculate_status 0 sampleDoc = DocumentStatus.active)) ∧
    (∀ d, (get_document 0
        { documents := [sampleDoc], permissions := [], access_logs := [] }
        "doc-1" "alice").1 = Except.ok d →
      (get_document 0
        { documents := [sampleDoc], permissions := [], access_logs := [] }
        "doc-1" "alice").2.access_logs =
        [] ++
          [{ document_id := "doc-1", user_id := "alice",
             action := AccessAction.view, success := true,
             error_message := none }]) ∧
    (∀ e, (get_document 0
        { documents := [sampleDoc], permissions := [], access_logs := [] }
        "doc-1" "alice").1 = Except.error e →
      e = SvcError.forbidden ∧
      (get_document 0
        { documents := [sampleDoc], permissions := [], access_logs := [] }
        "doc-1" "alice").2.access_logs =
        [] ++
          [{ document_id := "doc-1", user_id := "alice",
             action := AccessAction.access_denied, success := false,
             error_message :=
               some "User not authorized to access this document" }]) :=
  get_document_spec 0
    { documents := [sampleDoc], permissions := [], access_logs := [] }
    "doc-1" "alice" sampleDoc rfl

/-- C5: for a non-deleted, non-expired document with a view limit, a row
with `access_count` equal to the limit recomputes to `VIEW_EXHAUSTED`;
and from `access_count = view_limit - 1`, one more download by the sender
or recipient succeeds, raising `access_count` to the limit, after which
the immediately following download attempt is denied with the stored
document (all fields, so in particular everything other than status)
exactly as the first download left it. -/
theorem download_view_limit_boundary
    (decryptFn : String → String → String → Option String)
    (now : Time) (st : DbState) (document_id user_id : String)
    (doc : Document) (v : Nat) (c : String)
    (hfind : st.documents.find? (fun d => d.id == document_id) = some doc)
    (hrole : user_id = doc.sender_id ∨ user_id = doc.recipient_id)
    (hdel : doc.deleted_at = none) (hst : doc.status ≠ DocumentStatus.deleted)
    (hexp : ∀ e, doc.expires_at = some e → now ≤ e)
    (hvl : doc.view_limit = some v) (hcnt : doc.access_count + 1 = v)
    (hdec : decryptFn doc.encrypted_content doc.encryption_iv doc.id = some c) :
    calculate_status now { doc with access_count := v } =
      DocumentStatus.view_exhausted ∧
    (download_document decryptFn now st document_id user_id).1 = Except.ok c ∧
    (download_document decryptFn now st document_id user_id).2.documents =
      replace_document st.documents document_id
        { doc with access_count := v, status := DocumentStatus.view_exhausted } ∧
    (download_document decryptFn now
        (download_document decryptFn now st document_id user_id).2
        document_id user_id).1 = Except.error SvcError.forbidden ∧
    (download_document decryptFn now
        (download_document decryptFn now st document_id user_id).2
        document_id user_id).2.documents =
      (download_document decryptFn now st document_id user_id).2.documents := by
  have hid : (doc.id == document_id) = true := by
    have h := List.find?_some hfind
    exact h
  have hexpf : expiry_passed now doc.expires_at = false :=
    expiry_passed_eq_false now doc.expires_at hexp
  have hact : calculate_status now doc = DocumentStatus.active := by
    unfold calculate_status
    rw [hexpf]
    simp [hdel, hst, hvl, view_limit_reached]
    omega
  have hneg : ¬(user_id ≠ doc.sender_id ∧ user_id ≠ doc.recipient_id) := by
    tauto
  obtain ⟨did, dsid, drid, denc, divc, dexp, dvl, dac, dstc, dupd, ddel, dfn, dfs⟩ := doc
  subst hcnt
  simp only at hid hrole hdel hst hexp hvl hdec hexpf hact hneg
  subst hvl hdel
  simp [download_document, is_accessible_by, hfind, hneg, hact, update_status,
    increment_access_count, calculate_status, hst, hexpf, hdec, log_access,
    view_limit_reached, hid, find?_replace_document, replace_document_twice]

/-- C5 witness: recipient `bob` downloads `limitDoc` (view limit one,
count zero) once successfully; the retry is denied and the stored row is
untouched by the denial. -/
theorem download_view_limit_boundary_witness :
    calculate_status 0 { limitDoc with access_count := 1 } =
      DocumentStatus.view_exhausted ∧
    (download_document (fun _ _ _ => some "plain") 0 limitSt "doc-1" "bob").1 =
      Except.ok "plain" ∧
    (download_document (fun _ _ _ => some "plain") 0 limitSt "doc-1" "bob").2.documents =
      replace_document limitSt.documents "doc-1"
        { limitDoc with access_count := 1, status := DocumentStatus.view_exhausted } ∧
    (download_document (fun _ _ _ => some "plain") 0
        (download_document (fun _ _ _ => some "plain") 0 limitSt "doc-1" "bob").2
        "doc-1" "bob").1 = Except.error SvcError.forbidden ∧
    (download_document (fun _ _ _ => some "plain") 0
        (download_document (fun _ _ _ => some "plain") 0 limitSt "doc-1" "bob").2
        "doc-1" "bob").2.documents =
      (download_document (fun _ _ _ => some "plain") 0 limitSt "doc-1" "bob").2.documents :=
  download_view_limit_boundary (fun _ _ _ => some "plain") 0 limitSt "doc-1" "bob"
    limitDoc 1 "plain" rfl (Or.inr rfl) rfl (by decide)
    (fun e h => Option.noConfusion h) rfl rfl rfl

/-- C6 counterexample: a document whose stored status is a stale
`VIEW_EXHAUSTED` (its fields recompute to `ACTIVE`) is downloaded with a
failing decryption; the download errs, yet the stored status field has
changed — the accessibility check refreshed it to `ACTIVE` before the
decrypt ran, and that refresh is committed when the denial is logged.  So
"access_count and status are left unchanged" is false for the stored
status field. -/
theorem download_decrypt_failure_changes_status :
    (download_document (fun _ _ _ => none) 0
        { documents := [{ sampleDoc with
            status := DocumentStatus.view_exhausted, view_limit := some 5 }],
          permissions := [], access_logs := [] } "doc-1" "alice").1 =
      Except.error SvcError.serverError ∧
    (download_document (fun _ _ _ => none) 0
        { documents := [{ sampleDoc with
            status := DocumentStatus.view_exhausted, view_limit := some 5 }],
          permissions := [], access_logs := [] } "doc-1" "alice").2.documents =
      [{ sampleDoc with view_limit := some 5 }] ∧
    ({ sampleDoc with
        status := DocumentStatus.view_exhausted, view_limit := some 5 } : Document).status ≠
      ({ sampleDoc with view_limit := some 5 } : Document).status :=
  ⟨rfl, rfl, by decide⟩

/-- C6 (amended): the access counter is incremented only after decryption
succeeds, never before.  When the decryption routine fails on an
accessible document, the caller receives a generic 500, an
`ACCESS_DENIED` audit row is appended, and the stored row keeps its
`access_count` — its status field is merely refreshed to the recomputed
status of the original fields (hence unchanged whenever it was already
fresh); the failed attempt consumes no view. -/
theorem download_decrypt_failure_spec
    (decryptFn : String → String → String → Option String)
    (now : Time) (st : DbState) (document_id user_id : String) (doc : Document)
    (hfind : st.documents.find? (fun d => d.id == document_id) = some doc)
    (hrole : user_id = doc.sender_id ∨ user_id = doc.recipient_id)
    (hact : calculate_status now doc = DocumentStatus.active)
    (hdec : decryptFn doc.encrypted_content doc.encryption_iv doc.id = none) :
    (download_document decryptFn now st document_id user_id).1 =
      Except.error SvcError.serverError ∧
    (download_document decryptFn now st document_id user_id).2.documents =
      replace_document st.documents document_id (update_status now doc) ∧
    (update_status now doc).access_count = doc.access_count ∧
    (update_status now doc).status = calculate_status now doc ∧
    (download_document decryptFn now st document_id user_id).2.access_logs =
      st.access_logs ++
        [{ document_id := document_id, user_id := user_id,
           action := AccessAction.access_denied, success := false,
           error_message := some "Decryption failed" }] := by
  have hneg : ¬(user_id ≠ doc.sender_id ∧ user_id ≠ doc.recipient_id) := by
    tauto
  obtain ⟨did, dsid, drid, denc, divc, dexp, dvl, dac, dstc, dupd, ddel, dfn, dfs⟩ := doc
  simp only at hrole hact hdec hneg
  simp [download_document, is_accessible_by, update_status, hfind, hneg, hact,
    hdec, log_access]

/-- C6 (amended) witness: sender `alice`, decryption always failing, on
the fresh `sampleDoc`. -/
theorem download_decrypt_failure_spec_witness :
    (download_document (fun _ _ _ => none) 0
        { documents := [sampleDoc], permissions := [], access_logs := [] }
        "doc-1" "alice").1 = Except.error SvcError.serverError ∧
    (download_document (fun _ _ _ => none) 0
        { documents := [sampleDoc], permissions := [], access_logs := [] }
        "doc-1" "alice").2.documents =
      replace_document [sampleDoc] "doc-1" (update_status 0 sampleDoc) ∧
    (update_status 0 sampleDoc).access_count = sampleDoc.access_count ∧
    (update_status 0 sampleDoc).status = calculate_status 0 sampleDoc ∧
    (download_document (fun _ _ _ => none) 0
        { documents := [sampleDoc], permissions := [], access_logs := [] }
        "doc-1" "alice").2.access_logs =
      [] ++
        [{ document_id := "doc-1", user_id := "alice",
           action := AccessAction.access_denied, success := false,
           error_message := some "Decryption failed" }] :=
  download_decrypt_failure_spec (fun _ _ _ => none) 0
    { documents := [sampleDoc], permissions := [], access_logs := [] }
    "doc-1" "alice" sampleDoc rfl (Or.inl rfl) rfl rfl

/-- Characterisation of `expire_documents` over any state and per-item
failure pattern: the return value counts the successfully expired part of
the selection (`expires_at ≤ now` and stored status `ACTIVE`), every
selected row is marked `EXPIRED`, one `expired` event per non-failing
item carries its original expiry, other tables are untouched, and the
finalised job row persists status `completed` with both counters at
their column defaults of 0 — the loop's counts never reach it. -/
theorem expire_documents_spec (fails : Document → Bool) (now : Time) (st : LifeState) :
    (expire_documents fails now st).1 =
      ((st.documents.filter (expire_selects now)).filter (fun d => !fails d)).length ∧
    (expire_documents fails now st).2.documents =
      st.documents.map (fun d =>
        if expire_selects now d then { d with status := DocumentStatus.expired }
        else d) ∧
    (expire_documents fails now st).2.lifecycle_events =
      st.lifecycle_events ++
        ((st.documents.filter (expire_selects now)).filter (fun d => !fails d)).map
          (fun d => { document_id := d.id, event_type := "expired",
                      automated := true, meta_expiration_date := d.expires_at,
                      meta_original_filename := none, meta_file_size := none,
                      meta_deletion_date := none }) ∧
    (expire_documents fails now st).2.cleanup_jobs =
      st.cleanup_jobs ++
        [{ job_type := "document_expiration", status := "completed",
           items_processed := 0, items_failed := 0, error_message := none }] ∧
    (expire_documents fails now st).2.access_logs = st.access_logs ∧
    (expire_documents fails now st).2.config = st.config := by
  have h := expire_loop_spec fails (st.documents.filter (expire_selects now))
  refine ⟨?_, ?_, ?_, ?_, ?_, ?_⟩ <;>
    simp [expire_documents, h.1, h.2.1, h.2.2, mkExpiredEvent]

/-- C8 (code bug): at `now = 10`, with one overdue `ACTIVE` document and
no per-item failures, `expire_documents` returns the count 1, marks the
document `EXPIRED` and records exactly one `expired` event carrying the
original expiry — the claim's selection, transition, event and
return-value parts hold — but the finalised `CleanupJob` row persists
`items_processed = 0`, not 1.  The loop increments its counters only on
the detached instance `_start_cleanup_job` returned from a session it
already closed, and `_complete_cleanup_job` refetches the row and writes
only `status`, `completed_at` and `error_message`, leaving both counters
at their column defaults: the assignments `job.items_processed = ...` and
`job.items_failed += 1` are dead stores, plainly against their own
purpose, so the claim's counter bookkeeping names the intent and the
code drops it. -/
theorem expire_documents_counters_not_persisted :
    (expire_documents (fun _ => false) 10 expireSt).1 = 1 ∧
    (expire_documents (fun _ => false) 10 expireSt).2.documents =
      [{ overdueDoc with status := DocumentStatus.expired }] ∧
    (expire_documents (fun _ => false) 10 expireSt).2.lifecycle_events =
      [{ document_id := "doc-1", event_type := "expired", automated := true,
         meta_expiration_date := some 5, meta_original_filename := none,
         meta_file_size := none, meta_deletion_date := none }] ∧
    (expire_documents (fun _ => false) 10 expireSt).2.cleanup_jobs =
      [{ job_type := "document_expiration", status := "completed",
         items_processed := 0, items_failed := 0, error_message := none }] ∧
    (expire_documents (fun _ => false) 10 expireSt).1 ≠
      ((expire_documents (fun _ => false) 10 expireSt).2.cleanup_jobs.map
        (fun j => j.items_processed)).sum :=
  ⟨rfl, rfl, rfl, rfl, by decide⟩

/-- C9: when the eligible set fits in one batch, the first
`cleanup_deleted_documents` run permanently deletes exactly the `DELETED`
documents whose `updated_at` is at or before `now` minus the grace
period, and returns their count; an immediately following second run on
the resulting state selects nothing, processes 0 items, changes no
documents, logs or events, and still finalises its `CleanupJob` record as
`completed`. -/
theorem cleanup_idempotent (now : Time) (st : LifeState)
    (huniq : (st.documents.map (fun d => d.id)).Nodup)
    (hbatch : (st.documents.filter
        (cleanup_selects (now - get_config_int st "cleanup_grace_period_days" 30))).length ≤
      get_config_int st "cleanup_batch_size" 100) :
    (cleanup_deleted_documents now st).2.documents =
      st.documents.filter (fun d =>
        !cleanup_selects (now - get_config_int st "cleanup_grace_period_days" 30) d) ∧
    (cleanup_deleted_documents now st).1 =
      (st.documents.filter
        (cleanup_selects (now - get_config_int st "cleanup_grace_period_days" 30))).length ∧
    (cleanup_deleted_documents now (cleanup_deleted_documents now st).2).1 = 0 ∧
    (cleanup_deleted_documents now (cleanup_deleted_documents now st).2).2.documents =
      (cleanup_deleted_documents now st).2.documents ∧
    (cleanup_deleted_documents now (cleanup_deleted_documents now st).2).2.access_logs =
      (cleanup_deleted_documents now st).2.access_logs ∧
    (cleanup_deleted_documents now (cleanup_deleted_documents now st).2).2.lifecycle_events =
      (cleanup_deleted_documents now st).2.lifecycle_events ∧
    (cleanup_deleted_documents now (cleanup_deleted_documents now st).2).2.cleanup_jobs =
      (cleanup_deleted_documents now st).2.cleanup_jobs ++
        [{ job_type := "document_cleanup", status := "completed",
           items_processed := 0, items_failed := 0, error_message := none }] := by
  have hsel : (st.documents.filter
      (cleanup_selects (now - get_config_int st "cleanup_grace_period_days" 30))).take
        (get_config_int st "cleanup_batch_size" 100) =
      st.documents.filter
        (cleanup_selects (now - get_config_int st "cleanup_grace_period_days" 30)) :=
    List.take_of_length_le hbatch
  have hloop := cleanup_loop_spec now
    (st.documents.filter
      (cleanup_selects (now - get_config_int st "cleanup_grace_period_days" 30))) st
  have hfilter : st.documents.filter (fun d =>
      (st.documents.filter
        (cleanup_selects (now - get_config_int st "cleanup_grace_period_days" 30))).all
          (fun s => d.id != s.id)) =
      st.documents.filter (fun d =>
        !cleanup_selects (now - get_config_int st "cleanup_grace_period_days" 30) d) := by
    apply List.filter_congr
    intro x hx
    by_cases hex : cleanup_selects (now - get_config_int st "cleanup_grace_period_days" 30) x = true
    · have hxmem : x ∈ st.documents.filter
          (cleanup_selects (now - get_config_int st "cleanup_grace_period_days" 30)) :=
        List.mem_filter.mpr ⟨hx, hex⟩
      have hall : ((st.documents.filter
          (cleanup_selects (now - get_config_int st "cleanup_grace_period_days" 30))).all
            (fun s => x.id != s.id)) = false := by
        rw [Bool.eq_false_iff]
        intro hall
        rw [List.all_eq_true] at hall
        have := hall x hxmem
        simp at this
      rw [hall, hex]
      rfl
    · have hex' : cleanup_selects (now - get_config_int st "cleanup_grace_period_days" 30) x = false :=
        eq_false_of_ne_true hex
      have hall : ((st.documents.filter
          (cleanup_selects (now - get_config_int st "cleanup_grace_period_days" 30))).all
            (fun s => x.id != s.id)) = true := by
        rw [List.all_eq_true]
        intro s hs
        have hsm := (List.mem_filter.mp hs).1
        have hse := (List.mem_filter.mp hs).2
        rw [bne_iff_ne]
        intro heq
        have hxs : x = s := List.inj_on_of_nodup_map huniq hx hsm heq
        rw [hxs] at hex
        exact hex hse
      rw [hall, hex']
      rfl
  have hdocs1 : (cleanup_deleted_documents now st).2.documents =
      st.documents.filter (fun d =>
        !cleanup_selects (now - get_config_int st "cleanup_grace_period_days" 30) d) := by
    rw [cleanup_deleted_documents]
    simp only [hsel]
    rw [hloop.2.1, hfilter]
  have hcount1 : (cleanup_deleted_documents now st).1 =
      (st.documents.filter
        (cleanup_selects (now - get_config_int st "cleanup_grace_period_days" 30))).length := by
    rw [cleanup_deleted_documents]
    simp only [hsel]
    exact hloop.1
  have hcfg1 : (cleanup_deleted_documents now st).2.config = st.config := by
    rw [cleanup_deleted_documents]
    simp only [hsel]
    exact hloop.2.2.2
  have hgrace2 : get_config_int (cleanup_deleted_documents now st).2
      "cleanup_grace_period_days" 30 =
      get_config_int st "cleanup_grace_period_days" 30 :=
    get_config_int_congr _ _ _ _ hcfg1
  have hsel2 : (cleanup_deleted_documents now st).2.documents.filter
      (cleanup_selects (now - get_config_int (cleanup_deleted_documents now st).2
        "cleanup_grace_period_days" 30)) = [] := by
    rw [hgrace2, hdocs1, List.filter_filter]
    have hpt : ∀ x ∈ st.documents,
        (cleanup_selects (now - get_config_int st "cleanup_grace_period_days" 30) x &&
          !cleanup_selects (now - get_config_int st "cleanup_grace_period_days" 30) x) =
          (fun _ => false) x := by
      intro x _
      exact Bool.and_not_self _
    rw [List.filter_congr hpt]
    exact List.filter_false _
  have hrun2 : cleanup_deleted_documents now (cleanup_deleted_documents now st).2 =
      (0, { (cleanup_deleted_documents now st).2 with
            cleanup_jobs := (cleanup_deleted_documents now st).2.cleanup_jobs ++
              [{ job_type := "document_cleanup", status := "completed",
                 items_processed := 0, items_failed := 0, error_message := none }] }) := by
    rw [cleanup_deleted_documents]
    simp only [hsel2, List.take_nil]
    rfl
  refine ⟨hdocs1, hcount1, ?_, ?_, ?_, ?_, ?_⟩ <;> rw [hrun2]

/-- C9 witness: one soft-deleted document twenty days past the default
thirty-day grace period at `now = 50`; the first run deletes it, the
second run processes nothing and completes. -/
theorem cleanup_idempotent_witness :
    (cleanup_deleted_documents 50 cleanupSt).2.documents =
      cleanupSt.documents.filter (fun d =>
        !cleanup_selects (50 - get_config_int cleanupSt "cleanup_grace_period_days" 30) d) ∧
    (cleanup_deleted_documents 50 cleanupSt).1 =
      (cleanupSt.documents.filter
        (cleanup_selects (50 - get_config_int cleanupSt "cleanup_grace_period_days" 30))).length ∧
    (cleanup_deleted_documents 50 (cleanup_deleted_documents 50 cleanupSt).2).1 = 0 ∧
    (cleanup_deleted_documents 50 (cleanup_deleted_documents 50 cleanupSt).2).2.documents =
      (cleanup_deleted_documents 50 cleanupSt).2.documents ∧
    (cleanup_deleted_documents 50 (cleanup_deleted_documents 50 cleanupSt).2).2.access_logs =
      (cleanup_deleted_documents 50 cleanupSt).2.access_logs ∧
    (cleanup_deleted_documents 50 (cleanup_deleted_documents 50 cleanupSt).2).2.lifecycle_events =
      (cleanup_deleted_documents 50 cleanupSt).2.lifecycle_events ∧
    (cleanup_deleted_documents 50 (cleanup_deleted_documents 50 cleanupSt).2).2.cleanup_jobs =
      (cleanup_deleted_documents 50 cleanupSt).2.cleanup_jobs ++
        [{ job_type := "document_cleanup", status := "completed",
           items_processed := 0, items_failed := 0, error_message := none }] :=
  cleanup_idempotent 50 cleanupSt (by decide) (by decide)

/-- C10: an unexpired explicit grant for `(document_id, user_id,
capability)` makes `check_document_permission` return true for any
document table whatsoever — the table may lack the row entirely (as after
a permanent purge) or hold it with any lifecycle status; neither existence
nor status is consulted beyond identifying sender and recipient. -/
theorem check_document_permission_grant_suffices (now : Time)
    (docs : List Document) (perms : List DocumentPermission)
    (user_id document_id permission : String) (p : DocumentPermission)
    (hp : p ∈ perms) (h1 : p.document_id = document_id)
    (h2 : p.user_id = user_id) (h3 : p.permission_type = permission)
    (h4 : p.expires_at = none ∨ ∃ e, p.expires_at = some e ∧ now < e) :
    check_document_permission now docs perms user_id document_id permission = true := by
  simp only [check_document_permission]
  split
  · rfl
  · split
    · rfl
    · rw [List.find?_isSome]
      refine ⟨p, hp, ?_⟩
      simp only [Bool.and_eq_true, beq_iff_eq]
      exact ⟨⟨⟨h1, h2⟩, h3⟩, (permission_is_active_iff now p).mpr h4⟩

/-- C10 witness: the same never-expiring grant for `dave` admits him both
when the document table is empty (row purged) and when the row is present
with status `DELETED`. -/
theorem check_document_permission_grant_suffices_witness :
    check_document_permission 7 []
        [{ document_id := "doc-1", user_id := "dave",
           permission_type := "write", expires_at := none }]
        "dave" "doc-1" "write" = true ∧
    check_document_permission 7
        [{ sampleDoc with
           status := DocumentStatus.deleted, deleted_at := some 3 }]
        [{ document_id := "doc-1", user_id := "dave",
           permission_type := "write", expires_at := none }]
        "dave" "doc-1" "write" = true :=
  ⟨check_document_permission_grant_suffices 7 [] _ "dave" "doc-1" "write" _
      (List.mem_singleton.mpr rfl) rfl rfl rfl (Or.inl rfl),
   check_document_permission_grant_suffices 7 _ _ "dave" "doc-1" "write" _
      (List.mem_singleton.mpr rfl) rfl rfl rfl (Or.inl rfl)⟩

end Briefcase
namespace Briefcase

/-- XOR of byte strings has the shorter length. -/
theorem xorBytes_length (a b : List Nat) :
    (xorBytes a b).length = min a.length b.length := by
  simp [xorBytes]

/-- XORing the same equal-length mask twice is the identity. -/
theorem xorBytes_cancel (a b : List Nat) (h : a.length = b.length) :
    xorBytes (xorBytes a b) b = a := by
  induction a generalizing b with
  | nil => simp [xorBytes]
  | cons x xs ih =>
      cases b with
      | nil => simp at h
      | cons y ys =>
          simp only [xorBytes, List.zipWith_cons_cons]
          have hx : Nat.xor (Nat.xor x y) y = x := Nat.xor_cancel_right y x
          rw [hx]
          have := ih ys (by simpa using h)
          simp only [xorBytes] at this
          rw [this]

/-- XOR of byte-valued strings is byte-valued. -/
theorem xorBytes_lt (a b : List Nat) (ha : ∀ x ∈ a, x < 256)
    (hb : ∀ x ∈ b, x < 256) : ∀ x ∈ xorBytes a b, x < 256 := by
  induction a generalizing b with
  | nil => simp [xorBytes]
  | cons x xs ih =>
      cases b with
      | nil => simp [xorBytes]
      | cons y ys =>
          simp only [xorBytes, List.zipWith_cons_cons]
          intro z hz
          rcases List.mem_cons.mp hz with hz | hz
          · subst hz
            have h256 : (256 : Nat) = 2 ^ 8 := by norm_num
            rw [h256]
            exact Nat.xor_lt_two_pow (by simpa using ha x (by simp))
              (by simpa using hb y (by simp))
          · exact ih ys (fun u hu => ha u (by simp [hu]))
              (fun u hu => hb u (by simp [hu])) z hz

/-- PKCS7 padding reaches a whole number of 16-byte blocks. -/
theorem pkcs7_pad_length (bs : List Nat) :
    (pkcs7_pad bs).length % 16 = 0 := by
  unfold pkcs7_pad
  simp only [List.length_append, List.length_replicate]
  omega

/-- PKCS7 padding of a byte-valued string is byte-valued (the pad byte
is at most 16). -/
theorem pkcs7_pad_lt (bs : List Nat) (h : ∀ x ∈ bs, x < 256) :
    ∀ x ∈ pkcs7_pad bs, x < 256 := by
  intro x hx
  simp only [pkcs7_pad, List.mem_append] at hx
  rcases hx with hx | hx
  · exact h x hx
  · have hxe := (List.mem_replicate.mp hx).2
    rw [hxe]
    exact lt_of_le_of_lt (Nat.sub_le _ _) (by norm_num)

/-- Stripping PKCS7 padding undoes adding it. -/
theorem pkcs7_unpad_pad (bs : List Nat) :
    pkcs7_unpad (pkcs7_pad bs) = some bs := by
  have hlenp : (pkcs7_pad bs).length = bs.length + (16 - bs.length % 16) := by
    unfold pkcs7_pad
    rw [List.length_append, List.length_replicate]
  have hsub : (pkcs7_pad bs).length - (16 - bs.length % 16) = bs.length := by
    rw [hlenp]
    omega
  have hlast : (pkcs7_pad bs).getLast? = some (16 - bs.length % 16) := by
    unfold pkcs7_pad
    rw [List.getLast?_append, List.getLast?_replicate, if_neg (by omega)]
    rfl
  have hdrop : (pkcs7_pad bs).drop bs.length =
      List.replicate (16 - bs.length % 16) (16 - bs.length % 16) := by
    unfold pkcs7_pad
    exact List.drop_left bs _
  have htake : (pkcs7_pad bs).take bs.length = bs := by
    unfold pkcs7_pad
    exact List.take_left bs _
  have hguard : 1 ≤ 16 - bs.length % 16 ∧ 16 - bs.length % 16 ≤ 16 ∧
      16 - bs.length % 16 ≤ (pkcs7_pad bs).length ∧
      ((pkcs7_pad bs).drop ((pkcs7_pad bs).length - (16 - bs.length % 16))).all
        (fun x => x == 16 - bs.length % 16) := by
    refine ⟨by omega, by omega, by rw [hlenp]; omega, ?_⟩
    rw [hsub, hdrop, List.all_eq_true]
    intro x hx
    have := (List.mem_replicate.mp hx).2
    simp [this]
  unfold pkcs7_unpad
  rw [hlast]
  dsimp only
  rw [if_pos hguard, hsub, htake]

end Briefcase
namespace Briefcase

/-- Rejoining the 16-byte chunks of a string gives the string back. -/
theorem chunk16_flatten (l : List Nat) : (chunk16 l).flatten = l := by
  induction l using chunk16.induct with
  | case1 => simp [chunk16]
  | case2 a l ih =>
      rw [chunk16, List.flatten_cons, ih]
      exact List.take_append_drop 16 (a :: l)

/-- Chunking a string of block-aligned length yields full 16-byte
blocks. -/
theorem chunk16_all_length (l : List Nat) (h : l.length % 16 = 0) :
    ∀ b ∈ chunk16 l, b.length = 16 := by
  induction l using chunk16.induct with
  | case1 => simp [chunk16]
  | case2 a l ih =>
      rw [chunk16]
      intro b hb
      rcases List.mem_cons.mp hb with hb | hb
      · rw [hb, List.length_take]
        have : (a :: l).length % 16 = 0 := h
        have hlen : (a :: l).length ≥ 16 := by
          rw [List.length_cons] at this ⊢
          omega
        omega
      · refine ih ?_ b hb
        rw [List.length_drop]
        have : (a :: l).length % 16 = 0 := h
        omega

/-- Chunking the concatenation of full 16-byte blocks gives the blocks
back. -/
theorem flatten_chunk16 (blocks : List (List Nat))
    (h : ∀ b ∈ blocks, b.length = 16) : chunk16 blocks.flatten = blocks := by
  induction blocks with
  | nil => simp [chunk16]
  | cons c rest ih =>
      have hc : c.length = 16 := h c (by simp)
      rw [List.flatten_cons]
      cases hcc : c with
      | nil => rw [hcc] at hc; simp at hc
      | cons x xs =>
          rw [← hcc]
          have hne : c ++ rest.flatten = x :: (xs ++ rest.flatten) := by
            rw [hcc]; rfl
          rw [hne, chunk16, ← hne]
          have htake : (c ++ rest.flatten).take 16 = c := by
            rw [← hc]
            exact List.take_left c _
          have hdrop : (c ++ rest.flatten).drop 16 = rest.flatten := by
            rw [← hc]
            exact List.drop_left c _
          rw [htake, hdrop, ih (fun b hb => h b (by simp [hb]))]

/-- The concatenation of full 16-byte blocks is block-aligned. -/
theorem flatten_length_16 (blocks : List (List Nat))
    (h : ∀ b ∈ blocks, b.length = 16) : blocks.flatten.length % 16 = 0 := by
  induction blocks with
  | nil => rfl
  | cons c rest ih =>
      rw [List.flatten_cons, List.length_append, h c (by simp)]
      have := ih (fun b hb => h b (by simp [hb]))
      omega

/-- Concatenation preserves byte-valuedness. -/
theorem flatten_lt (blocks : List (List Nat))
    (h : ∀ b ∈ blocks, ∀ x ∈ b, x < 256) : ∀ x ∈ blocks.flatten, x < 256 := by
  intro x hx
  rcases List.mem_flatten.mp hx with ⟨b, hb, hxb⟩
  exact h b hb x hxb

/-- A length-preserving block cipher keeps CBC ciphertext blocks at 16
bytes. -/
theorem cbc_encrypt_blocks_length (C : BlockCipher)
    (hlen : ∀ b, b.length = 16 → (C.encB b).length = 16) :
    ∀ (bs : List (List Nat)) (prev : List Nat), prev.length = 16 →
      (∀ b ∈ bs, b.length = 16) →
      ∀ c ∈ cbc_encrypt_blocks C prev bs, c.length = 16 := by
  intro bs
  induction bs with
  | nil => intro prev _ _ c hc; simp [cbc_encrypt_blocks] at hc
  | cons b rest ih =>
      intro prev hprev hbs c hc
      rw [cbc_encrypt_blocks] at hc
      have hxb : (xorBytes b prev).length = 16 := by
        rw [xorBytes_length, hbs b (by simp), hprev]
        rfl
      have hcb : (C.encB (xorBytes b prev)).length = 16 := hlen _ hxb
      rcases List.mem_cons.mp hc with hc | hc
      · rw [hc]; exact hcb
      · exact ih (C.encB (xorBytes b prev)) hcb
          (fun u hu => hbs u (by simp [hu])) c hc

/-- A byte-valued block cipher keeps CBC ciphertext blocks byte-valued. -/
theorem cbc_encrypt_blocks_lt (C : BlockCipher)
    (hlen : ∀ b, b.length = 16 → (C.encB b).length = 16)
    (hbyte : ∀ b, b.length = 16 → (∀ x ∈ b, x < 256) → ∀ x ∈ C.encB b, x < 256) :
    ∀ (bs : List (List Nat)) (prev : List Nat), prev.length = 16 →
      (∀ x ∈ prev, x < 256) →
      (∀ b ∈ bs, b.length = 16) → (∀ b ∈ bs, ∀ x ∈ b, x < 256) →
      ∀ c ∈ cbc_encrypt_blocks C prev bs, ∀ x ∈ c, x < 256 := by
  intro bs
  induction bs with
  | nil => intro prev _ _ _ _ c hc; simp [cbc_encrypt_blocks] at hc
  | cons b rest ih =>
      intro prev hprev hprev256 hbs hbs256 c hc
      rw [cbc_encrypt_blocks] at hc
      have hxb : (xorBytes b prev).length = 16 := by
        rw [xorBytes_length, hbs b (by simp), hprev]
        rfl
      have hxb256 : ∀ x ∈ xorBytes b prev, x < 256 :=
        xorBytes_lt b prev (hbs256 b (by simp)) hprev256
      have hcb : (C.encB (xorBytes b prev)).length = 16 := hlen _ hxb
      have hcb256 : ∀ x ∈ C.encB (xorBytes b prev), x < 256 :=
        hbyte _ hxb hxb256
      rcases List.mem_cons.mp hc with hc | hc
      · rw [hc]; exact hcb256
      · exact ih (C.encB (xorBytes b prev)) hcb hcb256
          (fun u hu => hbs u (by simp [hu]))
          (fun u hu => hbs256 u (by simp [hu])) c hc

/-- CBC decryption inverts CBC encryption under the inverse block cipher,
block by block along the chained IV. -/
theorem cbc_decrypt_encrypt (C : BlockCipher)
    (hinv : ∀ b, b.length = 16 → C.decB (C.encB b) = b)
    (hlen : ∀ b, b.length = 16 → (C.encB b).length = 16) :
    ∀ (bs : List (List Nat)) (prev : List Nat), prev.length = 16 →
      (∀ b ∈ bs, b.length = 16) →
      cbc_decrypt_blocks C prev (cbc_encrypt_blocks C prev bs) = bs := by
  intro bs
  induction bs with
  | nil => intro prev _ _; rfl
  | cons b rest ih =>
      intro prev hprev hbs
      rw [cbc_encrypt_blocks, cbc_decrypt_blocks]
      have hxb : (xorBytes b prev).length = 16 := by
        rw [xorBytes_length, hbs b (by simp), hprev]
        rfl
      rw [hinv _ hxb]
      rw [xorBytes_cancel b prev (by rw [hbs b (by simp), hprev])]
      rw [ih (C.encB (xorBytes b prev)) (hlen _ hxb)
        (fun u hu => hbs u (by simp [hu]))]

end Briefcase
namespace Briefcase

/-- The base64 alphabet tables invert each other on sextet values. -/
theorem b64idx_b64chr : ∀ n, n < 64 → b64idx (b64chr n) = n := by
  decide

/-- No alphabet character collides with the `'='` padding byte. -/
theorem b64chr_ne_61 : ∀ n, n < 64 → b64chr n ≠ 61 := by
  decide

/-- Decoding base64 inverts encoding on byte-valued input. -/
theorem b64_roundtrip : ∀ bs : List Nat, (∀ x ∈ bs, x < 256) →
    b64decode (b64encode bs) = bs := by
  intro bs
  induction bs using b64encode.induct with
  | case1 a b c rest ih =>
      intro h
      have ha : a < 256 := h a (by simp)
      have hb : b < 256 := h b (by simp)
      have hc : c < 256 := h c (by simp)
      rw [b64encode, b64decode]
      rw [if_neg (b64chr_ne_61 (b % 16 * 4 + c / 64) (by omega)),
        if_neg (b64chr_ne_61 (c % 64) (by omega))]
      rw [b64idx_b64chr (a / 4) (by omega),
        b64idx_b64chr (a % 4 * 16 + b / 16) (by omega),
        b64idx_b64chr (b % 16 * 4 + c / 64) (by omega),
        b64idx_b64chr (c % 64) (by omega)]
      rw [ih (fun x hx => h x (by simp [hx]))]
      congr 1
      · omega
      · congr 1
        · omega
        · congr 1
          omega
  | case2 a b =>
      intro h
      have ha : a < 256 := h a (by simp)
      have hb : b < 256 := h b (by simp)
      rw [b64encode, b64decode]
      rw [if_neg (b64chr_ne_61 (b % 16 * 4) (by omega))]
      rw [if_pos rfl]
      rw [b64idx_b64chr (a / 4) (by omega),
        b64idx_b64chr (a % 4 * 16 + b / 16) (by omega),
        b64idx_b64chr (b % 16 * 4) (by omega)]
      congr 1
      · omega
      · congr 1
        omega
  | case3 a =>
      intro h
      have ha : a < 256 := h a (by simp)
      rw [b64encode, b64decode]
      rw [if_pos rfl]
      rw [b64idx_b64chr (a / 4) (by omega),
        b64idx_b64chr (a % 4 * 16) (by omega)]
      congr 1
      omega
  | case4 => intro _; rfl

end Briefcase
namespace Briefcase

/-- C7: for every byte content and document id, decrypting the
(ciphertext, IV) envelope produced by `encrypt_content` with the same
document id returns exactly the content.  The AES block permutation
delivered by the external `cryptography` library enters as the
per-document-id cipher family, assumed to be what AES is: a
length-preserving, byte-valued permutation of 16-byte blocks with its
inverse direction; the IV is any 16-byte value, as `os.urandom(16)`
supplies. -/
theorem encrypt_decrypt_roundtrip
    (cipherFor : String → BlockCipher) (document_id : String)
    (iv content : List Nat)
    (hinv : ∀ b, b.length = 16 →
      (cipherFor document_id).decB ((cipherFor document_id).encB b) = b)
    (hlen : ∀ b, b.length = 16 → ((cipherFor document_id).encB b).length = 16)
    (hbyte : ∀ b, b.length = 16 → (∀ x ∈ b, x < 256) →
      ∀ x ∈ (cipherFor document_id).encB b, x < 256)
    (hiv : iv.length = 16) (hiv256 : ∀ x ∈ iv, x < 256)
    (hcontent : ∀ x ∈ content, x < 256) :
    decrypt_content cipherFor
      (encrypt_content cipherFor document_id iv content).1
      (encrypt_content cipherFor document_id iv content).2
      document_id = some content := by
  have hblocks16 : ∀ b ∈ chunk16 (pkcs7_pad content), b.length = 16 :=
    chunk16_all_length _ (pkcs7_pad_length content)
  have hblocks256 : ∀ b ∈ chunk16 (pkcs7_pad content), ∀ x ∈ b, x < 256 := by
    intro b hb x hx
    have hmem : x ∈ pkcs7_pad content := by
      rw [← chunk16_flatten (pkcs7_pad content)]
      exact List.mem_flatten.mpr ⟨b, hb, hx⟩
    exact pkcs7_pad_lt content hcontent x hmem
  have hct16 : ∀ c ∈ cbc_encrypt_blocks (cipherFor document_id) iv
      (chunk16 (pkcs7_pad content)), c.length = 16 :=
    cbc_encrypt_blocks_length (cipherFor document_id) hlen _ iv hiv hblocks16
  have hct256 : ∀ c ∈ cbc_encrypt_blocks (cipherFor document_id) iv
      (chunk16 (pkcs7_pad content)), ∀ x ∈ c, x < 256 :=
    cbc_encrypt_blocks_lt (cipherFor document_id) hlen hbyte _ iv hiv hiv256
      hblocks16 hblocks256
  have hflat256 : ∀ x ∈ (cbc_encrypt_blocks (cipherFor document_id) iv
      (chunk16 (pkcs7_pad content))).flatten, x < 256 :=
    flatten_lt _ hct256
  unfold encrypt_content decrypt_content
  simp only
  rw [b64_roundtrip _ hflat256, b64_roundtrip iv hiv256]
  rw [if_pos ⟨hiv, flatten_length_16 _ hct16⟩]
  rw [flatten_chunk16 _ hct16]
  rw [cbc_decrypt_encrypt (cipherFor document_id) hinv hlen _ iv hiv hblocks16]
  rw [chunk16_flatten]
  exact pkcs7_unpad_pad content

end Briefcase
namespace Briefcase

/-- C7 witness: the identity block cipher, an all-zero IV and content
`[1, 2, 3]`, evaluated through padding, chaining and base64. -/
theorem encrypt_decrypt_roundtrip_witness :
    decrypt_content (fun _ => ⟨fun b => b, fun b => b⟩)
      (encrypt_content (fun _ => ⟨fun b => b, fun b => b⟩) "doc-1"
        (List.replicate 16 0) [1, 2, 3]).1
      (encrypt_content (fun _ => ⟨fun b => b, fun b => b⟩) "doc-1"
        (List.replicate 16 0) [1, 2, 3]).2
      "doc-1" = some [1, 2, 3] :=
  encrypt_decrypt_roundtrip (fun _ => ⟨fun b => b, fun b => b⟩) "doc-1"
    (List.replicate 16 0) [1, 2, 3]
    (fun _ _ => rfl) (fun _ h => h) (fun _ _ hb => hb)
    rfl (by decide) (by decide)

end Briefcase
